import Mathlib

/-!
Verification of the kernel-module file introspection core of `linapi`
(`src/module_file.rs`): the `.modinfo` tag parser (`ModInfo::read`), the
trailing-signature locator, and the CMS `SignedData` shape checks
(`ModuleSignature::new`).

Modelling conventions:
- Rust `String`/`&str` values are Lean `List Char` (record and value text).
- Raw file bytes are `List Nat` (each element a byte value).
- `usize` arithmetic follows Rust's defined wrap-around (two's complement)
  overflow behaviour of release builds, modelled as `Nat` arithmetic with an
  explicit modulus `2 ^ 64` (`wrapSub`).
- Rust panics (`unimplemented!`, out-of-bounds `Vec::remove`, a failed
  `assert!`) are modelled as an explicit `panicked` / `none` outcome, distinct
  from returned `ModInfoError` values.
- The external crates (`elf`, `der`, `cms`, the decompressors) are outside the
  embedded code: the embedding starts from the `.modinfo` section already
  split out of the ELF image (a list of NUL-separated records) and, for the
  CMS layer, from an already DER-decoded `SignedData` value.
-/

namespace ModuleFile

/-- `ParameterType` from `module_file.rs` (the `Custom` payload is the
unrecognized type string). -/
inductive ParameterType where
  | Byte
  | HexInt
  | Short
  | UnsignedShort
  | Int
  | UnsignedInt
  | Long
  | UnsignedLong
  | CharPointer
  | Bool
  | InvBool
  | Unknown
  | String
  | UnsignedLongLong
  | Custom (s : List Char)
  deriving DecidableEq, Repr

/-- `ParameterType::parse`: the `match` over known kernel parameter type
names, defaulting to `Custom`. -/
def ParameterType.parse (s : List Char) : ParameterType :=
  if s = "byte".data then .Byte
  else if s = "hexint".data then .HexInt
  else if s = "short".data then .Short
  else if s = "ushort".data then .UnsignedShort
  else if s = "int".data then .Int
  else if s = "uint".data then .UnsignedInt
  else if s = "long".data then .Long
  else if s = "ulong".data then .UnsignedLong
  else if s = "charp".data then .CharPointer
  else if s = "bool".data then .Bool
  else if s = "invbool".data then .InvBool
  else if s = "string".data then .String
  else if s = "ullong".data then .UnsignedLongLong
  else .Custom s

/-- `ModuleParameter`: name, type and (newline-joined) description. -/
structure ModuleParameter where
  name : List Char
  ty : ParameterType
  description : List Char
  deriving DecidableEq, Repr

/-- `ModInfoError` from the `error` module of `module_file.rs`. -/
inductive ModInfoError where
  | InvalidModule (s : List Char)
  | InvalidSignature
  | UnsupportedSignature
  | InvalidParameter
  | Compression (s : List Char)
  | MissingInfo
  | InvalidUtf8 (s c : List Char)
  deriving DecidableEq, Repr

/-- The tag map built by `ModInfo::read`: `HashMap<String, Vec<String>>`,
modelled as an association list in key-insertion order (the code never
iterates the map, it only removes specific keys, so the order is
unobservable). -/
abbrev TagMap := List (List Char × List (List Char))

/-- Rust `str::split_once(sep)`: split at the first occurrence of `sep`,
`none` when `sep` does not occur. -/
def splitOnce (sep : Char) : List Char → Option (List Char × List Char)
  | [] => none
  | c :: rest =>
    if c = sep then some ([], rest)
    else
      match splitOnce sep rest with
      | none => none
      | some (a, b) => some (c :: a, b)

/-- Rust `str::split(sep)` collected to a list: every maximal `sep`-free run,
including empty runs; the empty string yields `[[]]` (one empty piece). -/
def splitAll (sep : Char) : List Char → List (List Char)
  | [] => [[]]
  | c :: rest =>
    if c = sep then [] :: splitAll sep rest
    else
      match splitAll sep rest with
      | [] => [[c]]
      | a :: tl => (c :: a) :: tl

/-- One iteration of the record loop of `ModInfo::read`:
`map.entry(key).or_insert_with(Vec::new)` followed by
`if !value.is_empty() { vec.push(value) }` — the entry is created even for an
empty value, but the empty value itself is not pushed. -/
def entryPush : TagMap → List Char → List Char → TagMap
  | [], k, v => [(k, if v = [] then [] else [v])]
  | (k', vs) :: rest, k, v =>
    if k' = k then (k', if v = [] then vs else vs ++ [v]) :: rest
    else (k', vs) :: entryPush rest k v

/-- The record loop of `ModInfo::read` (lines 816-837): split records on NUL
(already done by the caller of this model), skip empty records, require a `=`
separator (`ModInfoError::InvalidParameter` otherwise), and accumulate into
the tag map. UTF-8 validation is upstream of this model (records are already
`List Char`). -/
def buildMap : List (List Char) → TagMap → Except ModInfoError TagMap
  | [], m => .ok m
  | s :: rest, m =>
    if s = [] then buildMap rest m
    else
      match splitOnce '=' s with
      | none => .error .InvalidParameter
      | some (key, value) => buildMap rest (entryPush m key value)

/-- `HashMap::remove(key)`: the removed value (if present) and the remaining
map. -/
def mapRemove : TagMap → List Char → Option (List (List Char)) × TagMap
  | [], _ => (none, [])
  | (k', vs) :: rest, k =>
    if k' = k then (some vs, rest)
    else
      let r := mapRemove rest k
      (r.1, (k', vs) :: r.2)

/-- The parameter map `x : HashMap<String, (ParameterType, Vec<String>)>`,
modelled as an association list in insertion order. -/
abbrev PMap := List (List Char × (ParameterType × List (List Char)))

/-- Key membership in the parameter map (`HashMap::insert(..).is_some()`
observes exactly this). -/
def pContains : PMap → List Char → Bool
  | [], _ => false
  | (n, _) :: rest, k => n = k || pContains rest k

/-- The `parmtype` loop of `ModInfo::read` (lines 848-857): each record is
`name:type`; a missing `:` or a second type for the same name is
`InvalidParameter` (`x.insert(..).is_some()` detects the duplicate). -/
def paramTypes : List (List Char) → PMap → Except ModInfoError PMap
  | [], x => .ok x
  | kv :: rest, x =>
    match splitOnce ':' kv with
    | none => .error .InvalidParameter
    | some (name, ty) =>
      if pContains x name then .error .InvalidParameter
      else paramTypes rest (x ++ [(name, (ParameterType.parse ty, []))])

/-- `x.entry(name).or_insert((ParameterType::Unknown, Vec::new())).1.push(desc)`. -/
def pPush : PMap → List Char → List Char → PMap
  | [], n, d => [(n, (.Unknown, [d]))]
  | (n', (t, ds)) :: rest, n, d =>
    if n' = n then (n', (t, ds ++ [d])) :: rest
    else (n', (t, ds)) :: pPush rest n d

/-- The `parm` loop of `ModInfo::read` (lines 861-869): each record is
`name:description`; descriptions accumulate per name in encounter order. -/
def paramDescs : List (List Char) → PMap → Except ModInfoError PMap
  | [], x => .ok x
  | kv :: rest, x =>
    match splitOnce ':' kv with
    | none => .error .InvalidParameter
    | some (name, desc) => paramDescs rest (pPush x name desc)

/-- `Vec::join("\n")` on the accumulated description lines. -/
def joinNl (ds : List (List Char)) : List Char :=
  List.intercalate ['\n'] ds

/-- The parameter-processing block of `ModInfo::read` (lines 839-879):
remove `parmtype` and `parm` from the tag map (defaulting to empty lists),
build the parameter map, and flatten it into `ModuleParameter` values. -/
def parseParams (m : TagMap) : Except ModInfoError (TagMap × List ModuleParameter) :=
  match mapRemove m ("parmtype".data) with
  | (pt, m1) =>
    match mapRemove m1 ("parm".data) with
    | (pd, m2) =>
      match paramTypes (pt.getD []) [] with
      | .error e => .error e
      | .ok x =>
        match paramDescs (pd.getD []) x with
        | .error e => .error e
        | .ok y => .ok (m2, y.map fun p => ⟨p.1, p.2.1, joinNl p.2.2⟩)

/-- `SIGNATURE_MAGIC` (`module_file.rs` line 43): the byte string
`b"~Module signature appended~\n"`. -/
def SIGNATURE_MAGIC : List Nat :=
  "~Module signature appended~\n".data.map Char.toNat

/-- The `usize` modulus of the 64-bit targets this crate compiles for. -/
def USIZE_MOD : Nat := 2 ^ 64

/-- `usize` subtraction `a - b` with Rust's release-build wrap-on-overflow
(two's complement) semantics. -/
def wrapSub (a b : Nat) : Nat :=
  (a % USIZE_MOD + (USIZE_MOD - b % USIZE_MOD)) % USIZE_MOD

/-- `RawModuleSignature` (the 12-byte on-disk trailer). `sig_len` is already
big-endian decoded here, since the only read site immediately applies
`u32::from_be`. -/
structure RawModuleSignature where
  algo : Nat
  hash : Nat
  id_type : Nat
  signer_len : Nat
  key_id_len : Nat
  pad : List Nat
  sig_len : Nat
  deriving DecidableEq, Repr

/-- `RawModuleSignature::valid`: every recognized field must hold its single
known value; `sig_len` is not inspected. -/
def RawModuleSignature.valid (h : RawModuleSignature) : Bool :=
  h.algo = 0 && h.hash = 0 && h.id_type = 2 && h.signer_len = 0 &&
    h.key_id_len = 0 && decide (h.pad = [0, 0, 0])

/-- The unaligned `#[repr(C)]` read of the trailer from the first 12 bytes of
`sig` (5 `u8` fields, 3 padding bytes, then a `u32` at offset 8 read
native-endian and passed through `u32::from_be`, i.e. decoded big-endian). -/
def readTrailer (sig : List Nat) : RawModuleSignature :=
  { algo := sig.getD 0 0
    hash := sig.getD 1 0
    id_type := sig.getD 2 0
    signer_len := sig.getD 3 0
    key_id_len := sig.getD 4 0
    pad := [sig.getD 5 0, sig.getD 6 0, sig.getD 7 0]
    sig_len := sig.getD 8 0 * 2 ^ 24 + sig.getD 9 0 * 2 ^ 16 +
      sig.getD 10 0 * 2 ^ 8 + sig.getD 11 0 }

/-- Rust slice indexing `l.get(a..b)`: `Some` of the subslice when
`a <= b <= l.len()`, `None` otherwise. `l.get(a..)` is `sliceGet l a l.length`. -/
def sliceGet (l : List Nat) (a b : Nat) : Option (List Nat) :=
  if a ≤ b ∧ b ≤ l.length then some ((l.drop a).take (b - a)) else none

/-- Rust `slice::ends_with(s)`: the last `s.len()` elements equal `s`. -/
def endsWith (l s : List Nat) : Bool :=
  decide (s.length ≤ l.length ∧ l.drop (l.length - s.length) = s)

/-- Outcome of the signature-locating block: the optional raw signature blob,
a returned error, or a panic (the `assert!` on the trailer slice length). -/
inductive SigOutcome where
  | ok (sig : Option (List Nat))
  | err (e : ModInfoError)
  | panicked
  deriving DecidableEq, Repr

/-- The signature block of `ModInfo::read` (lines 881-906), up to the raw
signature blob (the spec's `find_signature`). `sig_hdr_off` is computed with
wrapping `usize` subtraction *before* the magic check, exactly as in the
source; `size_of::<RawModuleSignature>()` is 12 (see `readTrailer`). The
`u32`-to-`usize` conversion of `sig_len` cannot fail on a 64-bit target, so
its `try_into` error arm is unreachable and not modelled. The CMS
construction applied to a located blob (`ModuleSignature::new`) is modelled
separately on the decoded `SignedData`. -/
def findSignature (img : List Nat) : SigOutcome :=
  let sig_hdr_off := wrapSub (wrapSub img.length 12) SIGNATURE_MAGIC.length
  if endsWith img SIGNATURE_MAGIC then
    match sliceGet img sig_hdr_off img.length with
    | none => .ok none
    | some sig =>
      if sig.length < 12 then .panicked
      else
        let hdr := readTrailer sig
        if ¬ hdr.valid then .err .InvalidSignature
        else
          match sliceGet img (wrapSub sig_hdr_off hdr.sig_len) sig_hdr_off with
          | none => .ok none
          | some sigBytes => .ok (some sigBytes)
  else .ok none

/-- `y_n`: strict boolean tag decision. `"0"` and `"1"` hit
`unimplemented!("ambiguous Bool")`, a panic, modelled as `none`. -/
def y_n (s : List Char) : Option Bool :=
  if s = "0".data ∨ s = "1".data then none
  else some (s = "Y".data ∨ s = "y".data)

/-- `one`: `map.remove(key).map(|mut v| v.remove(0)).unwrap_or_default()`.
`Vec::remove(0)` on an empty vector panics (modelled as `none`); values past
the first are dropped with the removed entry. -/
def one (m : TagMap) (k : List Char) : Option (List Char × TagMap) :=
  match mapRemove m k with
  | (none, m') => some ([], m')
  | (some [], _) => none
  | (some (v :: _), m') => some (v, m')

/-- `more`: `map.remove(key).unwrap_or_default()`. -/
def more (m : TagMap) (k : List Char) : List (List Char) × TagMap :=
  let r := mapRemove m k
  (r.1.getD [], r.2)

/-- `comma`: `map.remove(key).unwrap_or_default().pop().unwrap_or_default()
.split(',').collect()` — the *last* accumulated value (or the empty string)
split on commas. -/
def comma (m : TagMap) (k : List Char) : List (List Char) × TagMap :=
  let r := mapRemove m k
  (splitAll ',' ((r.1.getD []).getLast?.getD []), r.2)

/-- `ModInfo` (section-level): text fields as in the source; `signature`
holds the located raw signature blob (see `findSignature`). -/
structure ModInfo where
  /-- The source field is named `alias`, a reserved word in Lean. -/
  aliases : List (List Char)
  soft_dependencies : List (List Char)
  license : List Char
  authors : List (List Char)
  description : List Char
  version : List Char
  firmware : List (List Char)
  version_magic : List Char
  name : List Char
  in_tree : Bool
  retpoline : Bool
  staging : Bool
  dependencies : List (List Char)
  source_checksum : List Char
  parameters : List ModuleParameter
  signature : Option (List Nat)
  imports : List (List Char)
  deriving DecidableEq, Repr

/-- The `ModInfo` struct-literal assembly of `ModInfo::read` (lines 931-950),
evaluating the tag extractions in source field order; `none` is a panic from
`one` or `y_n`. -/
def assemble (m0 : TagMap) (parameters : List ModuleParameter)
    (signature : Option (List Nat)) : Option ModInfo :=
  match more m0 ("alias".data) with
  | (aliases, m1) => match more m1 ("softdep".data) with
  | (soft_dependencies, m2) => match one m2 ("license".data) with
  | none => none
  | some (license, m3) => match more m3 ("author".data) with
  | (authors, m4) => match one m4 ("description".data) with
  | none => none
  | some (description, m5) => match one m5 ("version".data) with
  | none => none
  | some (version, m6) => match more m6 ("firmware".data) with
  | (firmware, m7) => match one m7 ("vermagic".data) with
  | none => none
  | some (version_magic, m8) => match one m8 ("name".data) with
  | none => none
  | some (name, m9) => match one m9 ("intree".data) with
  | none => none
  | some (intreeS, m10) => match y_n intreeS with
  | none => none
  | some in_tree => match one m10 ("retpoline".data) with
  | none => none
  | some (retpolineS, m11) => match y_n retpolineS with
  | none => none
  | some retpoline => match one m11 ("staging".data) with
  | none => none
  | some (stagingS, m12) => match y_n stagingS with
  | none => none
  | some staging => match comma m12 ("depends".data) with
  | (dependencies, m13) => match one m13 ("srcversion".data) with
  | none => none
  | some (source_checksum, m14) => match more m14 ("import_ns".data) with
  | (imports, _) =>
    some
      { aliases := aliases
        soft_dependencies := soft_dependencies
        license := license
        authors := authors
        description := description
        version := version
        firmware := firmware
        version_magic := version_magic
        name := name
        in_tree := in_tree
        retpoline := retpoline
        staging := staging
        dependencies := dependencies
        source_checksum := source_checksum
        parameters := parameters
        signature := signature
        imports := imports }

/-- Overall outcome of `ModInfo::read` on a section: a `ModInfo`, a returned
`ModInfoError`, or a panic. -/
inductive ReadOutcome where
  | ok (m : ModInfo)
  | err (e : ModInfoError)
  | panicked
  deriving DecidableEq, Repr

/-- `ModInfo::read` from the `.modinfo` section records and the decompressed
image bytes: build the tag map, process parameters, locate the signature,
then assemble the struct (each stage in source order, failing fast). -/
def readSection (records : List (List Char)) (img : List Nat) : ReadOutcome :=
  match buildMap records [] with
  | .error e => .err e
  | .ok m =>
    match parseParams m with
    | .error e => .err e
    | .ok (m2, parameters) =>
      match findSignature img with
      | .panicked => .panicked
      | .err e => .err e
      | .ok signature =>
        match assemble m2 parameters signature with
        | none => .panicked
        | some s => .ok s

/-- Projection: the `dependencies` field of a successful read. -/
def ReadOutcome.deps? : ReadOutcome → Option (List (List Char))
  | .ok m => some m.dependencies
  | _ => none

/-- Projection: the `license` field of a successful read. -/
def ReadOutcome.license? : ReadOutcome → Option (List Char)
  | .ok m => some m.license
  | _ => none

/-- Projection: the `in_tree` field of a successful read. -/
def ReadOutcome.inTree? : ReadOutcome → Option Bool
  | .ok m => some m.in_tree
  | _ => none

/-- Projection: the `parameters` field of a successful read. -/
def ReadOutcome.params? : ReadOutcome → Option (List ModuleParameter)
  | .ok m => some m.parameters
  | _ => none

/-- Projection: the `signature` field of a successful read. -/
def ReadOutcome.sig? : ReadOutcome → Option (Option (List Nat))
  | .ok m => some m.signature
  | _ => none

/-- A CMS `SignerIdentifier`: the issuer-plus-serial-number variant or the
subject-key-identifier variant. -/
inductive SignerIdentifier where
  | IssuerAndSerialNumber (issuer serialNumber : List Nat)
  | SubjectKeyIdentifier (ski : List Nat)
  deriving DecidableEq, Repr

/-- A CMS `SignerInfo`, keeping the one field `ModuleSignature::new`
inspects: the signer identifier. -/
structure SignerInfo where
  sid : SignerIdentifier
  deriving DecidableEq, Repr

/-- A CMS `SignedData`, keeping the fields `ModuleSignature::new` inspects:
the digest-algorithm identifiers (as OID byte strings) and the signer
infos. -/
structure SignedData where
  digestAlgorithms : List (List Nat)
  signerInfos : List SignerInfo
  deriving DecidableEq, Repr

/-- `ModuleSignature`: the raw blob together with its decoded `SignedData`. -/
structure ModuleSignature where
  signature : List Nat
  signedData : SignedData
  deriving DecidableEq, Repr

/-- `ModuleSignature::new` (lines 1062-1091) after DER decoding: the decode
steps (`ContentInfo::from_der`, content-type check, `SignedData::from_der`,
all in the external `der`/`cms` crates) are modelled as the already-decoded
`signedData` argument; what remains are the three shape checks of lines
1074-1085 and the final construction. -/
def ModuleSignature.new (signature : List Nat) (signedData : SignedData) :
    Except ModInfoError ModuleSignature :=
  if signedData.digestAlgorithms.length > 1 then .error .UnsupportedSignature
  else if signedData.signerInfos.length > 1 then .error .UnsupportedSignature
  else
    match (signedData.signerInfos[0]?).map SignerInfo.sid with
    | some (SignerIdentifier.IssuerAndSerialNumber _ _) =>
      .ok ⟨signature, signedData⟩
    | _ => .error .UnsupportedSignature

/-- The `SignedData` shapes accepted by `ModuleSignature.new`, stated
directly (for comparison with the code): at most one digest algorithm and
exactly one signer, identified by issuer and serial number. -/
def newAcceptedShape (sd : SignedData) : Bool :=
  decide (sd.digestAlgorithms.length ≤ 1) &&
    match sd.signerInfos with
    | [s] =>
      match s.sid with
      | SignerIdentifier.IssuerAndSerialNumber _ _ => true
      | _ => false
    | _ => false

/-! ## Helper lemmas -/

theorem splitOnce_append (sep : Char) (pre v : List Char) (h : sep ∉ pre) :
    splitOnce sep (pre ++ sep :: v) = some (pre, v) := by
  induction pre with
  | nil => simp [splitOnce]
  | cons c cs ih =>
    simp only [List.mem_cons, not_or] at h
    simp only [List.cons_append, splitOnce, List.append_eq]
    rw [if_neg (fun hc => h.1 hc.symm), ih h.2]

theorem USIZE_MOD_eq : USIZE_MOD = 18446744073709551616 := by
  norm_num [USIZE_MOD]

theorem wrapSub_of_le {a b : Nat} (hb : b ≤ a) (ha : a < USIZE_MOD) :
    wrapSub a b = a - b := by
  rw [USIZE_MOD_eq] at ha
  unfold wrapSub
  rw [USIZE_MOD_eq]
  omega

theorem wrapSub_of_gt {a b : Nat} (hab : a < b) (hb : b < USIZE_MOD) :
    wrapSub a b = a + USIZE_MOD - b := by
  rw [USIZE_MOD_eq] at hb
  unfold wrapSub
  rw [USIZE_MOD_eq]
  omega

theorem endsWith_append (a s : List Nat) : endsWith (a ++ s) s = true := by
  have h1 : (a ++ s).length - s.length = a.length := by simp
  simp [endsWith, h1, List.drop_left]

theorem pContains_append (x y : PMap) (n : List Char) :
    pContains (x ++ y) n = (pContains x n || pContains y n) := by
  induction x with
  | nil => simp [pContains]
  | cons hd tl ih =>
    obtain ⟨n', v⟩ := hd
    by_cases hn : n' = n <;> simp [pContains, hn, ih]

theorem y_n_true_iff (s : List Char) :
    y_n s = some true ↔ (s = "Y".data ∨ s = "y".data) := by
  unfold y_n
  by_cases h0 : s = "0".data ∨ s = "1".data
  · rw [if_pos h0]
    constructor
    · intro hc; exact absurd hc (by simp)
    · intro hc
      rcases h0 with h | h <;> rcases hc with h' | h' <;> subst h' <;> exact absurd h (by decide)
  · rw [if_neg h0]
    simp

/-- If some entry of `l` parses to a name already present in `x`, the
`parmtype` loop fails (every failure of that loop is `InvalidParameter`). -/
theorem paramTypes_mem_dup (l : List (List Char)) (x : PMap) (n t kv : List Char)
    (hmem : kv ∈ l) (hsplit : splitOnce ':' kv = some (n, t))
    (hx : pContains x n = true) :
    paramTypes l x = .error .InvalidParameter := by
  induction l generalizing x with
  | nil => cases hmem
  | cons hd tl ih =>
    rcases List.mem_cons.mp hmem with heq | hmem'
    · subst heq
      simp only [paramTypes, hsplit]
      rw [if_pos hx]
    · cases hsp : splitOnce ':' hd with
      | none => simp only [paramTypes, hsp]
      | some p =>
        obtain ⟨n', t'⟩ := p
        simp only [paramTypes, hsp]
        by_cases hc : pContains x n' = true
        · rw [if_pos hc]
        · rw [if_neg hc]
          exact ih _ hmem' (by rw [pContains_append, hx, Bool.true_or])

/-- If the `parmtype` list contains an entry of name `n` followed (later in
the list) by another entry of the same name, the loop fails. -/
theorem paramTypes_dup_after (l1 : List (List Char)) (rest : List (List Char))
    (x : PMap) (n t1 kv1 : List Char)
    (hsplit1 : splitOnce ':' kv1 = some (n, t1))
    (hrest : ∃ kv2 t2, kv2 ∈ rest ∧ splitOnce ':' kv2 = some (n, t2)) :
    paramTypes (l1 ++ kv1 :: rest) x = .error .InvalidParameter := by
  induction l1 generalizing x with
  | nil =>
    simp only [List.nil_append, paramTypes, hsplit1]
    by_cases hc : pContains x n = true
    · rw [if_pos hc]
    · rw [if_neg hc]
      obtain ⟨kv2, t2, hm, hs⟩ := hrest
      refine paramTypes_mem_dup rest _ n t2 kv2 hm hs ?_
      rw [pContains_append]
      have hmem : pContains [(n, (ParameterType.parse t1, []))] n = true := by
        simp [pContains]
      rw [hmem, Bool.or_true]
  | cons hd tl ih =>
    simp only [List.cons_append]
    cases hsp : splitOnce ':' hd with
    | none => simp only [paramTypes, hsp]
    | some p =>
      obtain ⟨n', t'⟩ := p
      simp only [paramTypes, hsp]
      by_cases hc : pContains x n' = true
      · rw [if_pos hc]
      · rw [if_neg hc]
        exact ih _

theorem mapRemove_single_ne (k0 k : List Char) (X : List (List Char))
    (h : ¬ k0 = k) : mapRemove [(k0, X)] k = (none, [(k0, X)]) := by
  simp [mapRemove, h]

theorem mapRemove_single_eq (k : List Char) (X : List (List Char)) :
    mapRemove [(k, X)] k = (some X, []) := by
  simp [mapRemove]

theorem one_single_ne (k0 k : List Char) (X : List (List Char)) (h : ¬ k0 = k) :
    one [(k0, X)] k = some ([], [(k0, X)]) := by
  unfold one
  rw [mapRemove_single_ne k0 k X h]

theorem one_single_eq (k w : List Char) (ws : List (List Char)) :
    one [(k, w :: ws)] k = some (w, []) := by
  unfold one
  rw [mapRemove_single_eq k (w :: ws)]

theorem more_single_ne (k0 k : List Char) (X : List (List Char)) (h : ¬ k0 = k) :
    more [(k0, X)] k = ([], [(k0, X)]) := by
  unfold more
  rw [mapRemove_single_ne k0 k X h]
  rfl

theorem comma_single_eq (k : List Char) (X : List (List Char)) :
    comma [(k, X)] k = (splitAll ',' (X.getLast?.getD []), []) := by
  unfold comma
  rw [mapRemove_single_eq k X]
  rfl

theorem one_nil (k : List Char) : one [] k = some ([], []) := rfl

theorem more_nil (k : List Char) : more [] k = ([], []) := rfl

theorem comma_nil (k : List Char) : comma [] k = ([[]], []) := rfl

theorem sliceGet_of_le (l : List Nat) (a b : Nat) (h1 : a ≤ b)
    (h2 : b ≤ l.length) : sliceGet l a b = some ((l.drop a).take (b - a)) := by
  unfold sliceGet
  rw [if_pos ⟨h1, h2⟩]

theorem sliceGet_none_of_gt (l : List Nat) (a b : Nat) (h : b < a) :
    sliceGet l a b = none := by
  unfold sliceGet
  rw [if_neg (fun hcon => absurd hcon.1 (by omega))]

theorem buildMap_nil (m : TagMap) : buildMap [] m = .ok m := rfl

theorem buildMap_cons (s : List Char) (rest : List (List Char)) (m : TagMap)
    (k val : List Char) (hs : ¬ s = []) (hsplit : splitOnce '=' s = some (k, val)) :
    buildMap (s :: rest) m = buildMap rest (entryPush m k val) := by
  simp only [buildMap]
  rw [if_neg hs, hsplit]

theorem entryPush_nil (k v : List Char) (h : ¬ v = []) :
    entryPush [] k v = [(k, [v])] := by
  simp [entryPush, h]

theorem entryPush_cons_eq (k v : List Char) (vs : List (List Char)) (rest : TagMap)
    (h : ¬ v = []) : entryPush ((k, vs) :: rest) k v = (k, vs ++ [v]) :: rest := by
  simp [entryPush, h]

/-- `parseParams` on a tag map holding only a `depends` or `license` style
entry (no `parmtype`, no `parm`): no parameters, map passed through. -/
theorem parseParams_single_other (k : List Char) (X : List (List Char))
    (h1 : ¬ k = "parmtype".data) (h2 : ¬ k = "parm".data) :
    parseParams [(k, X)] = Except.ok ([(k, X)], []) := by
  unfold parseParams
  rw [mapRemove_single_ne k ("parmtype".data) X h1]
  dsimp only
  rw [mapRemove_single_ne k ("parm".data) X h2]
  rfl

/-- Assembling from a tag map holding only a `depends` entry: every other
field defaults, and `dependencies` is the comma-split of the entry's last
value (or of the empty string). -/
theorem assemble_single_depends (X : List (List Char)) (ps : List ModuleParameter)
    (sg : Option (List Nat)) :
    assemble [(("depends".data), X)] ps sg =
      some
        { aliases := [], soft_dependencies := [], license := [], authors := [],
          description := [], version := [], firmware := [], version_magic := [],
          name := [], in_tree := false, retpoline := false, staging := false,
          dependencies := splitAll ',' (X.getLast?.getD []), source_checksum := [],
          parameters := ps, signature := sg, imports := [] } := by
  simp only [assemble,
    more_single_ne ("depends".data) ("alias".data) X (by decide),
    more_single_ne ("depends".data) ("softdep".data) X (by decide),
    one_single_ne ("depends".data) ("license".data) X (by decide),
    more_single_ne ("depends".data) ("author".data) X (by decide),
    one_single_ne ("depends".data) ("description".data) X (by decide),
    one_single_ne ("depends".data) ("version".data) X (by decide),
    more_single_ne ("depends".data) ("firmware".data) X (by decide),
    one_single_ne ("depends".data) ("vermagic".data) X (by decide),
    one_single_ne ("depends".data) ("name".data) X (by decide),
    one_single_ne ("depends".data) ("intree".data) X (by decide),
    one_single_ne ("depends".data) ("retpoline".data) X (by decide),
    one_single_ne ("depends".data) ("staging".data) X (by decide),
    comma_single_eq ("depends".data) X,
    one_nil, more_nil]
  rfl

/-- Assembling from a tag map holding only a `license` entry with at least
one value: `license` is the first value, everything else defaults. -/
theorem assemble_single_license (w : List Char) (ws : List (List Char))
    (ps : List ModuleParameter) (sg : Option (List Nat)) :
    assemble [(("license".data), w :: ws)] ps sg =
      some
        { aliases := [], soft_dependencies := [], license := w, authors := [],
          description := [], version := [], firmware := [], version_magic := [],
          name := [], in_tree := false, retpoline := false, staging := false,
          dependencies := [[]], source_checksum := [], parameters := ps,
          signature := sg, imports := [] } := by
  simp only [assemble,
    more_single_ne ("license".data) ("alias".data) (w :: ws) (by decide),
    more_single_ne ("license".data) ("softdep".data) (w :: ws) (by decide),
    one_single_eq ("license".data) w ws,
    one_nil, more_nil, comma_nil]
  rfl

/-! ## Theorems -/

/-- C1: the claim predicts `depends=` (and an absent `depends`) yield the
empty dependency list; the code splits the empty string on `,`, which yields
one empty piece, so `dependencies` is `[""]`, not `[]`. -/
theorem C1_counterexample :
    (readSection [("depends=".data)] []).deps? = some [[]] ∧
      (readSection [("depends=".data)] []).deps? ≠ some [] ∧
      (readSection [] []).deps? = some [[]] := by decide

/-- C2: the claim predicts zero digest algorithms is rejected; the code only
rejects *more than one*, so a `SignedData` with an empty digest-algorithm set
and one issuer-and-serial signer is accepted. -/
theorem C2_counterexample :
    ModuleSignature.new []
        ⟨[], [⟨SignerIdentifier.IssuerAndSerialNumber [] []⟩]⟩ =
      Except.ok ⟨[], ⟨[], [⟨SignerIdentifier.IssuerAndSerialNumber [] []⟩]⟩⟩ ∧
      (⟨[], [⟨SignerIdentifier.IssuerAndSerialNumber [] []⟩]⟩ :
        SignedData).digestAlgorithms.length ≠ 1 := ⟨rfl, by decide⟩

/-- C2 (amended): `ModuleSignature.new` succeeds exactly on *at most* one
digest algorithm together with exactly one signer identified by issuer and
serial number; every other shape is the unsupported-signature error. -/
theorem C2_amended (sig : List Nat) (sd : SignedData) :
    ModuleSignature.new sig sd =
      if newAcceptedShape sd then Except.ok ⟨sig, sd⟩
      else Except.error ModInfoError.UnsupportedSignature := by
  obtain ⟨das, sis⟩ := sd
  by_cases hd : das.length > 1
  · have hd' : ¬ das.length ≤ 1 := by omega
    cases sis with
    | nil => simp [ModuleSignature.new, newAcceptedShape, hd, hd']
    | cons s tl =>
      cases tl with
      | nil =>
        obtain ⟨sid⟩ := s
        cases sid <;> simp [ModuleSignature.new, newAcceptedShape, hd, hd']
      | cons s2 tl2 => simp [ModuleSignature.new, newAcceptedShape, hd, hd']
  · have hd' : das.length ≤ 1 := by omega
    cases sis with
    | nil => simp [ModuleSignature.new, newAcceptedShape, hd, hd']
    | cons s tl =>
      cases tl with
      | nil =>
        obtain ⟨sid⟩ := s
        cases sid <;> simp [ModuleSignature.new, newAcceptedShape, hd, hd']
      | cons s2 tl2 =>
        have hlen : (s :: s2 :: tl2).length > 1 := by simp
        simp [ModuleSignature.new, newAcceptedShape, hd', hlen]

/-- C5: the signature magic `~Module signature appended~\n` is 28 bytes
long, not 29 as the claim states. -/
theorem C5_counterexample :
    SIGNATURE_MAGIC.length = 28 ∧ SIGNATURE_MAGIC.length ≠ 29 := by decide

/-- C9: a known single-valued tag with an empty value and no other record
for that tag does *not* parse to an empty-string field: the empty value is
dropped but leaves an empty entry in the tag map, and the single-value
extraction then calls `Vec::remove(0)` on the empty vector, a panic. -/
theorem C9_empty_single_value_panics :
    readSection [("license=".data)] [] = ReadOutcome.panicked ∧
      readSection [("description=".data)] [] = ReadOutcome.panicked ∧
      readSection [("srcversion=".data)] [] = ReadOutcome.panicked := by decide

/-- C4: with a valid trailer whose big-endian `sig_len` (here 1) exceeds the
trailer offset (here 0), the wrapped subtraction produces an out-of-range
slice start, `get` returns `None`, and parsing completes with
`signature == None` — it does *not* return the invalid-signature error. -/
theorem C4_counterexample :
    findSignature ([0, 0, 2, 0, 0, 0, 0, 0, 0, 0, 0, 1] ++ SIGNATURE_MAGIC) =
        SigOutcome.ok none ∧
      findSignature ([0, 0, 2, 0, 0, 0, 0, 0, 0, 0, 0, 1] ++ SIGNATURE_MAGIC) ≠
        SigOutcome.err ModInfoError.InvalidSignature ∧
      (readSection [] ([0, 0, 2, 0, 0, 0, 0, 0, 0, 0, 0, 1] ++ SIGNATURE_MAGIC)).sig? =
        some none := by decide

/-- C3: an image that does not end with the signature magic yields no
signature and no error from signature location, whatever its length (the
offset computed before the check wraps instead of trapping in the modelled
release semantics), and a modinfo parse of such an image completes with
`signature == None`. -/
theorem C3_no_magic_no_signature (img : List Nat)
    (h : endsWith img SIGNATURE_MAGIC = false) :
    findSignature img = SigOutcome.ok none ∧
      (readSection [] img).sig? = some none := by
  have h1 : findSignature img = SigOutcome.ok none := by
    unfold findSignature
    rw [h]
    rfl
  refine ⟨h1, ?_⟩
  unfold readSection
  rw [h1]
  decide

/-- C3 witness: a 3-byte image, far shorter than the 40-byte
trailer-plus-magic footer. -/
theorem C3_witness :
    endsWith [1, 2, 3] SIGNATURE_MAGIC = false ∧
      findSignature [1, 2, 3] = SigOutcome.ok none ∧
      (readSection [] [1, 2, 3]).sig? = some none :=
  ⟨by decide, (C3_no_magic_no_signature [1, 2, 3] (by decide)).1,
    (C3_no_magic_no_signature [1, 2, 3] (by decide)).2⟩

/-- C6: a boolean tag (`intree`, `retpoline`, `staging`) whose record value
is the literal `0` or `1` makes the parse panic in `y_n`
(`unimplemented!("ambiguous Bool")`), so no `ModInfo` is returned; `Y`/`y`
are the only values mapping to `true`, and `N`/`n` or absence map to
`false`. -/
theorem C6_boolean_ambiguity (t v : List Char)
    (ht : t = "intree".data ∨ t = "retpoline".data ∨ t = "staging".data)
    (hv : v = "0".data ∨ v = "1".data) :
    readSection [t ++ '=' :: v] [] = ReadOutcome.panicked ∧
      y_n v = none ∧
      (∀ s : List Char, y_n s = some true ↔ (s = "Y".data ∨ s = "y".data)) ∧
      (readSection [("intree=Y".data)] []).inTree? = some true ∧
      (readSection [("intree=y".data)] []).inTree? = some true ∧
      (readSection [("intree=N".data)] []).inTree? = some false ∧
      (readSection [("intree=n".data)] []).inTree? = some false ∧
      (readSection [] []).inTree? = some false := by
  refine ⟨?_, ?_, y_n_true_iff, by decide, by decide, by decide, by decide, by decide⟩
  · rcases ht with h | h | h <;> rcases hv with h2 | h2 <;> subst h h2 <;> decide
  · rcases hv with h2 | h2 <;> subst h2 <;> decide

/-- C6 witness: the section `intree=1` panics. -/
theorem C6_witness :
    readSection [("intree".data ++ '=' :: "1".data)] [] = ReadOutcome.panicked :=
  (C6_boolean_ambiguity ("intree".data) ("1".data) (Or.inl rfl) (Or.inr rfl)).1

/-- C7: whenever the tag map holds exactly the `parmtype` value `foo:int`
and the `parm` values `foo:first line`, `foo:second line` in that encounter
order — however the records were interleaved in the section, the map groups
them — the parameter `foo` comes out with type `Int` and description
`first line\nsecond line`; a `parm` without `parmtype` gets type `Unknown`
(shown on a concrete interleaved section and a typeless one). -/
theorem C7_parameter_join :
    (∀ m : TagMap,
        (mapRemove m ("parmtype".data)).1 = some [("foo:int".data)] →
        (mapRemove (mapRemove m ("parmtype".data)).2 ("parm".data)).1 =
          some [("foo:first line".data), ("foo:second line".data)] →
        parseParams m =
          Except.ok ((mapRemove (mapRemove m ("parmtype".data)).2 ("parm".data)).2,
            [⟨"foo".data, ParameterType.Int, "first line\nsecond line".data⟩])) ∧
      (readSection [("parm=foo:first line".data), ("alias=bar".data),
            ("parmtype=foo:int".data), ("license=GPL".data),
            ("parm=foo:second line".data)] []).params? =
        some [⟨"foo".data, ParameterType.Int, "first line\nsecond line".data⟩] ∧
      (readSection [("parm=baz:only line".data)] []).params? =
        some [⟨"baz".data, ParameterType.Unknown, "only line".data⟩] := by
  refine ⟨?_, by decide, by decide⟩
  intro m h1 h2
  unfold parseParams
  rcases hA : mapRemove m ("parmtype".data) with ⟨pt, m1⟩
  rw [hA] at h1 h2
  dsimp only at h1 h2 ⊢
  rcases hB : mapRemove m1 ("parm".data) with ⟨pd, m2⟩
  rw [hB] at h2
  dsimp only at h2 ⊢
  subst h1
  subst h2
  rfl

/-- C7 witness: a concrete tag map with exactly those `parmtype` and `parm`
values. -/
theorem C7_witness :
    parseParams [(("parmtype".data), [("foo:int".data)]),
        (("parm".data), [("foo:first line".data), ("foo:second line".data)])] =
      Except.ok (([] : TagMap),
        [⟨"foo".data, ParameterType.Int, "first line\nsecond line".data⟩]) :=
  (C7_parameter_join).1
    [(("parmtype".data), [("foo:int".data)]),
      (("parm".data), [("foo:first line".data), ("foo:second line".data)])]
    (by decide) (by decide)

/-- C8: two `parmtype` records for one name — wherever they sit in the
`parmtype` value list, and regardless of any `parm` records (processed only
afterwards) — make the parameter stage fail with `InvalidParameter`; shown
also on a full section with the duplicates interleaved between `parm`
records. -/
theorem C8_duplicate_parmtype (m : TagMap) (l1 l2 l3 : List (List Char))
    (kv1 kv2 n t1 t2 : List Char)
    (hpt : (mapRemove m ("parmtype".data)).1 = some (l1 ++ kv1 :: l2 ++ kv2 :: l3))
    (h1 : splitOnce ':' kv1 = some (n, t1))
    (h2 : splitOnce ':' kv2 = some (n, t2)) :
    parseParams m = Except.error ModInfoError.InvalidParameter ∧
      readSection [("parm=foo:a".data), ("parmtype=foo:int".data), ("parm=foo:b".data),
          ("parmtype=foo:uint".data)] [] =
        ReadOutcome.err ModInfoError.InvalidParameter := by
  refine ⟨?_, by decide⟩
  unfold parseParams
  rcases hA : mapRemove m ("parmtype".data) with ⟨pt, m1⟩
  rw [hA] at hpt
  dsimp only at hpt ⊢
  subst hpt
  rcases hB : mapRemove m1 ("parm".data) with ⟨pd, m2⟩
  dsimp only [Option.getD]
  rw [List.append_assoc, List.cons_append]
  rw [paramTypes_dup_after l1 (l2 ++ kv2 :: l3) [] n t1 kv1 h1 ⟨kv2, t2, by simp, h2⟩]

/-- C8 witness: the `parmtype` values `foo:int` and `foo:uint`. -/
theorem C8_witness :
    parseParams [(("parmtype".data), [("foo:int".data), ("foo:uint".data)])] =
      Except.error ModInfoError.InvalidParameter :=
  (C8_duplicate_parmtype [(("parmtype".data), [("foo:int".data), ("foo:uint".data)])]
    [] [] [] ("foo:int".data) ("foo:uint".data) ("foo".data) ("int".data) ("uint".data)
    (by decide) (by decide) (by decide)).1

/-- C1 (amended): `depends=a,b,c` yields `["a","b","c"]`, but an empty or
missing `depends` yields `[""]` (one empty string), because splitting the
empty string on `,` produces one empty piece; in general a single
`depends=<v>` record yields exactly the comma-split of `<v>`. -/
theorem C1_amended (v : List Char) :
    (readSection [("depends".data ++ '=' :: v)] []).deps? = some (splitAll ',' v) ∧
      splitAll ',' ("a,b,c".data) = ["a".data, "b".data, "c".data] ∧
      (readSection [("depends=a,b,c".data)] []).deps? =
        some ["a".data, "b".data, "c".data] ∧
      (readSection [("depends=".data)] []).deps? = some [[]] ∧
      (readSection [] []).deps? = some [[]] := by
  refine ⟨?_, by decide, by decide, by decide, by decide⟩
  by_cases hv : v = []
  · subst hv; decide
  · have hb : buildMap [("depends".data ++ '=' :: v)] [] =
        Except.ok [(("depends".data), [v])] := by
      rw [buildMap_cons _ _ _ _ _ (by simp)
          (splitOnce_append '=' ("depends".data) v (by decide)),
        entryPush_nil _ _ hv, buildMap_nil]
    have hp : parseParams [(("depends".data), [v])] =
        Except.ok ([(("depends".data), [v])], []) :=
      parseParams_single_other _ _ (by decide) (by decide)
    have hf : findSignature [] = SigOutcome.ok none := by decide
    unfold readSection
    rw [hb]
    dsimp only
    rw [hp]
    dsimp only
    rw [hf]
    dsimp only
    rw [assemble_single_depends [v] [] none]
    rfl

/-- C10: with several non-empty `depends` records, `dependencies` comes from
the *last* record only (`Vec::pop`), whereas a single-valued tag such as
`license` keeps the *first* of several values (`Vec::remove(0)`). -/
theorem C10_depends_last (v1 v2 w1 w2 : List Char)
    (h1 : ¬ v1 = []) (h2 : ¬ v2 = []) (h3 : ¬ w1 = []) (h4 : ¬ w2 = []) :
    (readSection [("depends".data ++ '=' :: v1), ("depends".data ++ '=' :: v2)]
        []).deps? = some (splitAll ',' v2) ∧
      (readSection [("license".data ++ '=' :: w1), ("license".data ++ '=' :: w2)]
          []).license? = some w1 := by
  have hf : findSignature [] = SigOutcome.ok none := by decide
  constructor
  · have hb : buildMap
        [("depends".data ++ '=' :: v1), ("depends".data ++ '=' :: v2)] [] =
        Except.ok [(("depends".data), [v1, v2])] := by
      rw [buildMap_cons _ _ _ _ _ (by simp)
          (splitOnce_append '=' ("depends".data) v1 (by decide)),
        entryPush_nil _ _ h1,
        buildMap_cons _ _ _ _ _ (by simp)
          (splitOnce_append '=' ("depends".data) v2 (by decide)),
        entryPush_cons_eq _ _ _ _ h2, buildMap_nil]
      rfl
    have hp : parseParams [(("depends".data), [v1, v2])] =
        Except.ok ([(("depends".data), [v1, v2])], []) :=
      parseParams_single_other _ _ (by decide) (by decide)
    unfold readSection
    rw [hb]
    dsimp only
    rw [hp]
    dsimp only
    rw [hf]
    dsimp only
    rw [assemble_single_depends [v1, v2] [] none]
    rfl
  · have hb : buildMap
        [("license".data ++ '=' :: w1), ("license".data ++ '=' :: w2)] [] =
        Except.ok [(("license".data), [w1, w2])] := by
      rw [buildMap_cons _ _ _ _ _ (by simp)
          (splitOnce_append '=' ("license".data) w1 (by decide)),
        entryPush_nil _ _ h3,
        buildMap_cons _ _ _ _ _ (by simp)
          (splitOnce_append '=' ("license".data) w2 (by decide)),
        entryPush_cons_eq _ _ _ _ h4, buildMap_nil]
      rfl
    have hp : parseParams [(("license".data), [w1, w2])] =
        Except.ok ([(("license".data), [w1, w2])], []) :=
      parseParams_single_other _ _ (by decide) (by decide)
    unfold readSection
    rw [hb]
    dsimp only
    rw [hp]
    dsimp only
    rw [hf]
    dsimp only
    rw [assemble_single_license w1 [w2] [] none]
    rfl

/-- C10 witness: `depends=a` then `depends=b,c` gives `["b","c"]`;
`license=GPL` then `license=MIT` gives `GPL`. -/
theorem C10_witness :
    (readSection [("depends".data ++ '=' :: "a".data),
        ("depends".data ++ '=' :: "b,c".data)] []).deps? =
      some ["b".data, "c".data] ∧
      (readSection [("license".data ++ '=' :: "GPL".data),
          ("license".data ++ '=' :: "MIT".data)] []).license? = some ("GPL".data) :=
  C10_depends_last ("a".data) ("b,c".data) ("GPL".data) ("MIT".data)
    (by decide) (by decide) (by decide) (by decide)

set_option maxRecDepth 4096 in
/-- C4 (amended): when the image ends with the magic and carries a valid
trailer whose big-endian `sig_len` exceeds the trailer offset, the wrapped
subtraction puts the slice start out of range, the slice lookup returns
`None`, and signature location completes with no signature and *no* error. -/
theorem C4_amended (body : List Nat) (b0 b1 b2 b3 : Nat)
    (hb0 : b0 < 256) (hb1 : b1 < 256) (hb2 : b2 < 256) (hb3 : b3 < 256)
    (hgt : body.length < b0 * 2 ^ 24 + b1 * 2 ^ 16 + b2 * 2 ^ 8 + b3)
    (hsz : body.length + 40 < USIZE_MOD) :
    findSignature
        (body ++ [0, 0, 2, 0, 0, 0, 0, 0, b0, b1, b2, b3] ++ SIGNATURE_MAGIC) =
      SigOutcome.ok none := by
  have hM28 : SIGNATURE_MAGIC.length = 28 := by decide
  have e24 : (2 : Nat) ^ 24 = 16777216 := by norm_num
  have e16 : (2 : Nat) ^ 16 = 65536 := by norm_num
  have e8 : (2 : Nat) ^ 8 = 256 := by norm_num
  rw [USIZE_MOD_eq] at hsz
  have himg :
      (body ++ [0, 0, 2, 0, 0, 0, 0, 0, b0, b1, b2, b3] ++ SIGNATURE_MAGIC).length =
        body.length + 40 := by
    simp [hM28]
  have hends :
      endsWith (body ++ [0, 0, 2, 0, 0, 0, 0, 0, b0, b1, b2, b3] ++ SIGNATURE_MAGIC)
        SIGNATURE_MAGIC = true := endsWith_append _ _
  simp only [findSignature]
  rw [if_pos hends, himg, hM28]
  have h1 : wrapSub (body.length + 40) 12 = body.length + 28 := by
    rw [wrapSub_of_le (by omega) (by rw [USIZE_MOD_eq]; omega)]
    omega
  have h2 : wrapSub (body.length + 28) 28 = body.length := by
    rw [wrapSub_of_le (by omega) (by rw [USIZE_MOD_eq]; omega)]
    omega
  rw [h1, h2]
  have hTM :
      (([0, 0, 2, 0, 0, 0, 0, 0, b0, b1, b2, b3] : List Nat) ++
        SIGNATURE_MAGIC).length = 40 := by
    simp [hM28]
  have hs1 : sliceGet
      (body ++ [0, 0, 2, 0, 0, 0, 0, 0, b0, b1, b2, b3] ++ SIGNATURE_MAGIC)
      body.length (body.length + 40) =
      some ([0, 0, 2, 0, 0, 0, 0, 0, b0, b1, b2, b3] ++ SIGNATURE_MAGIC) := by
    have hle := sliceGet_of_le
      (body ++ [0, 0, 2, 0, 0, 0, 0, 0, b0, b1, b2, b3] ++ SIGNATURE_MAGIC)
      body.length (body.length + 40) (by omega) (by omega)
    rw [hle]
    refine congrArg some ?_
    have hd : (body ++ [0, 0, 2, 0, 0, 0, 0, 0, b0, b1, b2, b3] ++
        SIGNATURE_MAGIC).drop body.length =
        [0, 0, 2, 0, 0, 0, 0, 0, b0, b1, b2, b3] ++ SIGNATURE_MAGIC := by
      rw [List.append_assoc]
      exact List.drop_left _ _
    rw [hd]
    have h40 : body.length + 40 - body.length = 40 := by omega
    rw [h40, ← hTM]
    exact List.take_length _
  rw [hs1]
  dsimp only
  rw [if_neg (by rw [hTM]; omega)]
  have htr : readTrailer ([0, 0, 2, 0, 0, 0, 0, 0, b0, b1, b2, b3] ++ SIGNATURE_MAGIC) =
      { algo := 0, hash := 0, id_type := 2, signer_len := 0, key_id_len := 0,
        pad := [0, 0, 0],
        sig_len := b0 * 2 ^ 24 + b1 * 2 ^ 16 + b2 * 2 ^ 8 + b3 } := rfl
  rw [htr]
  rw [if_neg (fun hcon => hcon rfl)]
  dsimp only
  have hSlt : b0 * 2 ^ 24 + b1 * 2 ^ 16 + b2 * 2 ^ 8 + b3 < USIZE_MOD := by
    rw [USIZE_MOD_eq, e24, e16, e8]
    omega
  rw [wrapSub_of_gt hgt hSlt]
  have hnone := sliceGet_none_of_gt
    (body ++ [0, 0, 2, 0, 0, 0, 0, 0, b0, b1, b2, b3] ++ SIGNATURE_MAGIC)
    (body.length + USIZE_MOD - (b0 * 2 ^ 24 + b1 * 2 ^ 16 + b2 * 2 ^ 8 + b3))
    body.length (by
      rw [USIZE_MOD_eq, e24, e16, e8]
      rw [e24, e16, e8] at hgt
      omega)
  rw [hnone]

/-- C4 witness: a 40-byte image that is nothing but a valid trailer
(`sig_len = 1 > trailer offset 0`) and the magic. -/
theorem C4_amended_witness :
    findSignature (([] : List Nat) ++ [0, 0, 2, 0, 0, 0, 0, 0, 0, 0, 0, 1] ++
        SIGNATURE_MAGIC) = SigOutcome.ok none :=
  C4_amended [] 0 0 0 1 (by decide) (by decide) (by decide) (by decide)
    (by decide) (by decide)

set_option maxRecDepth 4096 in
/-- C5 (amended): the on-disk footer is the 12-byte trailer
(`algo, hash, id_type, signer_len, key_id_len`, 3 padding bytes, 4-byte
big-endian `sig_len`) immediately followed by the literal magic — which is
28 bytes, not 29 — at end-of-file; a well-formed footer makes the parser
return exactly the `sig_len` bytes preceding the trailer. -/
theorem C5_amended (body sb : List Nat) (b0 b1 b2 b3 : Nat)
    (hlen : b0 * 2 ^ 24 + b1 * 2 ^ 16 + b2 * 2 ^ 8 + b3 = sb.length)
    (hsz : body.length + sb.length + 40 < USIZE_MOD) :
    findSignature
        (body ++ sb ++ [0, 0, 2, 0, 0, 0, 0, 0, b0, b1, b2, b3] ++ SIGNATURE_MAGIC) =
      SigOutcome.ok (some sb) := by
  have hM28 : SIGNATURE_MAGIC.length = 28 := by decide
  rw [USIZE_MOD_eq] at hsz
  have himg :
      (body ++ sb ++ [0, 0, 2, 0, 0, 0, 0, 0, b0, b1, b2, b3] ++
        SIGNATURE_MAGIC).length = body.length + sb.length + 40 := by
    simp [hM28]
    omega
  have hends :
      endsWith (body ++ sb ++ [0, 0, 2, 0, 0, 0, 0, 0, b0, b1, b2, b3] ++
        SIGNATURE_MAGIC) SIGNATURE_MAGIC = true := endsWith_append _ _
  simp only [findSignature]
  rw [if_pos hends, himg, hM28]
  have h1 : wrapSub (body.length + sb.length + 40) 12 =
      body.length + sb.length + 28 := by
    rw [wrapSub_of_le (by omega) (by rw [USIZE_MOD_eq]; omega)]
    omega
  have h2 : wrapSub (body.length + sb.length + 28) 28 =
      body.length + sb.length := by
    rw [wrapSub_of_le (by omega) (by rw [USIZE_MOD_eq]; omega)]
    omega
  rw [h1, h2]
  have hTM :
      (([0, 0, 2, 0, 0, 0, 0, 0, b0, b1, b2, b3] : List Nat) ++
        SIGNATURE_MAGIC).length = 40 := by
    simp [hM28]
  have hs1 : sliceGet
      (body ++ sb ++ [0, 0, 2, 0, 0, 0, 0, 0, b0, b1, b2, b3] ++ SIGNATURE_MAGIC)
      (body.length + sb.length) (body.length + sb.length + 40) =
      some ([0, 0, 2, 0, 0, 0, 0, 0, b0, b1, b2, b3] ++ SIGNATURE_MAGIC) := by
    have hle := sliceGet_of_le
      (body ++ sb ++ [0, 0, 2, 0, 0, 0, 0, 0, b0, b1, b2, b3] ++ SIGNATURE_MAGIC)
      (body.length + sb.length) (body.length + sb.length + 40) (by omega) (by omega)
    rw [hle]
    refine congrArg some ?_
    have hd : (body ++ sb ++ [0, 0, 2, 0, 0, 0, 0, 0, b0, b1, b2, b3] ++
        SIGNATURE_MAGIC).drop (body.length + sb.length) =
        [0, 0, 2, 0, 0, 0, 0, 0, b0, b1, b2, b3] ++ SIGNATURE_MAGIC := by
      rw [List.append_assoc (body ++ sb), ← List.length_append body sb]
      exact List.drop_left _ _
    rw [hd]
    have h40 : body.length + sb.length + 40 - (body.length + sb.length) = 40 := by
      omega
    rw [h40, ← hTM]
    exact List.take_length _
  rw [hs1]
  dsimp only
  rw [if_neg (by rw [hTM]; omega)]
  have htr : readTrailer ([0, 0, 2, 0, 0, 0, 0, 0, b0, b1, b2, b3] ++ SIGNATURE_MAGIC) =
      { algo := 0, hash := 0, id_type := 2, signer_len := 0, key_id_len := 0,
        pad := [0, 0, 0],
        sig_len := b0 * 2 ^ 24 + b1 * 2 ^ 16 + b2 * 2 ^ 8 + b3 } := rfl
  rw [htr]
  rw [if_neg (fun hcon => hcon rfl)]
  dsimp only
  rw [hlen]
  have hws : wrapSub (body.length + sb.length) sb.length = body.length := by
    rw [wrapSub_of_le (by omega) (by rw [USIZE_MOD_eq]; omega)]
    omega
  rw [hws]
  have hs2 : sliceGet
      (body ++ sb ++ [0, 0, 2, 0, 0, 0, 0, 0, b0, b1, b2, b3] ++ SIGNATURE_MAGIC)
      body.length (body.length + sb.length) = some sb := by
    have hle := sliceGet_of_le
      (body ++ sb ++ [0, 0, 2, 0, 0, 0, 0, 0, b0, b1, b2, b3] ++ SIGNATURE_MAGIC)
      body.length (body.length + sb.length) (by omega) (by omega)
    rw [hle]
    refine congrArg some ?_
    have hd2 : (body ++ sb ++ [0, 0, 2, 0, 0, 0, 0, 0, b0, b1, b2, b3] ++
        SIGNATURE_MAGIC).drop body.length =
        sb ++ ([0, 0, 2, 0, 0, 0, 0, 0, b0, b1, b2, b3] ++ SIGNATURE_MAGIC) := by
      rw [List.append_assoc (body ++ sb), List.append_assoc body]
      exact List.drop_left _ _
    rw [hd2]
    have hsb : body.length + sb.length - body.length = sb.length := by omega
    rw [hsb]
    exact List.take_left _ _
  rw [hs2]

/-- C5 witness: a one-byte signature blob `[48]` with `sig_len = 1`. -/
theorem C5_amended_witness :
    findSignature (([] : List Nat) ++ [48] ++ [0, 0, 2, 0, 0, 0, 0, 0, 0, 0, 0, 1] ++
        SIGNATURE_MAGIC) = SigOutcome.ok (some [48]) :=
  C5_amended [] [48] 0 0 0 1 (by decide) (by decide)

end ModuleFile
